import Mathlib

/-!
# Project activity page: metric type resolution and tooltip rows

A shallow embedding of `ProjectActivityApp.js` (the `getMetricType` arrow
function and the `canAdmin` computation of `render`) and of the tooltip row
assembly exercised by `GraphsTooltips-test.js`.

JavaScript arrays are Lean lists, optional properties are `Option`s, and
`Array.prototype.find` is `List.find?`: the first element, in array order,
on which the predicate holds.
-/

set_option autoImplicit false

namespace ProjectActivity

/-! ## Data model -/

/-- A metric of the catalog (`Metric` of `../types`, with the fields the test's
`METRICS` constant shows): `custom` is an optional property. -/
structure Metric where
  key : String
  name : String
  type : String
  custom : Option Bool := none
  deriving DecidableEq, Repr

/-- The part of `Query` read by `getMetricType`: `query.graph` and
`query.customMetrics`. -/
structure Query where
  graph : String
  customMetrics : List String
  deriving DecidableEq, Repr

/-- The optional `configuration` property of the project:
`{ showHistory: boolean }`. -/
structure Configuration where
  showHistory : Bool
  deriving DecidableEq, Repr

/-- The `project` property:
`{ configuration?: { showHistory: boolean }, key: string, leakPeriodDate: string }`. -/
structure Project where
  configuration : Option Configuration
  key : String
  leakPeriodDate : String
  deriving DecidableEq, Repr

/-- The properties of `ProjectActivityApp` that its own logic reads; the
callbacks, the analyses and the loading flags are passed through to the
children untouched. -/
structure Props where
  project : Project
  metrics : List Metric
  query : Query
  deriving Repr

/-! ## `ProjectActivityApp` -/

/-- The arrow function `getMetricType` (lines 52-60). The imported helper
`getDisplayedHistoryMetrics` of `../utils` is the parameter `displayed`.

```
const historyMetrics = getDisplayedHistoryMetrics(query.graph, query.customMetrics);
const metricKey = historyMetrics.length > 0 ? historyMetrics[0] : '';
const metric = this.props.metrics.find(metric => metric.key === metricKey);
return metric ? metric.type : 'INT';
``` -/
def getMetricType (displayed : String → List String → List String) (props : Props) : String :=
  let historyMetrics := displayed props.query.graph props.query.customMetrics
  let metricKey := if h : historyMetrics.length > 0 then historyMetrics[0] else ""
  let metric := props.metrics.find? (fun metric => metric.key == metricKey)
  match metric with
  | some metric => metric.type
  | none => "INT"

/-- The two values `render` computes itself and hands to its children:
`canAdmin` for `ProjectActivityAnalysesList` and `metricsType` for
`ProjectActivityGraphs`. -/
structure Rendered where
  canAdmin : Bool
  metricsType : String
  deriving DecidableEq, Repr

/-- The method `render` (lines 62-109), reduced to the computed properties:

```
const { configuration } = this.props.project;
const canAdmin = configuration ? configuration.showHistory : false;
... canAdmin={canAdmin} ... metricsType={this.getMetricType()}
``` -/
def render (displayed : String → List String → List String) (props : Props) : Rendered :=
  let configuration := props.project.configuration
  let canAdmin := match configuration with
    | some configuration => configuration.showHistory
    | none => false
  { canAdmin := canAdmin, metricsType := getMetricType displayed props }

/-- Modelled from the spec: the helper `getDisplayedHistoryMetrics` of
`../utils`, which is imported by `ProjectActivityApp.js` and not part of the
sources at hand. "If `graphMode` denotes a fixed preset, the preset defines a
fixed ordered list of keys; if it denotes "custom", the displayed keys are
exactly `customMetricKeys` in caller-supplied order." The table of presets is
the parameter `presets`. -/
def getDisplayedHistoryMetrics (presets : String → List String)
    (graph : String) (customMetrics : List String) : List String :=
  if graph == "custom" then customMetrics else presets graph

/-- The key `getMetricType` looks up for a displayed-key sequence: its first
key, or the empty string when there is none. Used to state properties. -/
def lookedUpKey (historyMetrics : List String) : String :=
  match historyMetrics with
  | [] => ""
  | k :: _ => k

/-- The type a key has in the catalog, if the catalog has an entry for it
(the first one in catalog order). Used to state properties. -/
def typeInCatalog (metrics : List Metric) (k : String) : Option String :=
  (metrics.find? (fun metric => metric.key == k)).map (fun metric => metric.type)

/-! ## Tooltip rows

`GraphsTooltips.js` itself is not among the sources; its test is. The row
assembly is modelled from the specification, and the constants of the test
are transcribed from `GraphsTooltips-test.js`. -/

/-- Modelled from the spec: the component `GraphsTooltips` is missing, this is
the spec's `DataPoint = { timestamp: instant, value: number }` (the properties
`x` and `y` of the test's points). The values of the test are integers. -/
structure DataPoint where
  timestamp : String
  value : Int
  deriving DecidableEq, Repr

/-- Modelled from the spec: the component `GraphsTooltips` is missing, this is
the spec's `TimeSeries = { name, translatedName, data }`. -/
structure TimeSeries where
  name : String
  translatedName : String
  data : List DataPoint
  deriving DecidableEq, Repr

/-- Modelled from the spec: the component `GraphsTooltips` is missing, this is
the spec's `TooltipRow = { label: string, value: string, isCustomMetric: boolean }`. -/
structure TooltipRow where
  label : String
  value : String
  isCustomMetric : Bool
  deriving DecidableEq, Repr

/-- Modelled from the spec: the component `GraphsTooltips` is missing, these are
steps (c) and (d) of the spec's algorithm for one series and its point.
"Look up `metric = metricCatalog.find(key == s.name)`. Determine
`type = metric?.type ?? INT` and `isCustomMetric = metric?.custom ?? false`.
Emit `{ label: s.translatedName, value: formatValue(point.value, type), isCustomMetric }`." -/
def assembleRow (s : TimeSeries) (point : DataPoint) (metricCatalog : List Metric)
    (formatValue : Int → String → String) : TooltipRow :=
  let metric := metricCatalog.find? (fun metric => metric.key == s.name)
  let type := match metric with
    | some metric => metric.type
    | none => "INT"
  let isCustomMetric := match metric with
    | some metric => match metric.custom with
      | some custom => custom
      | none => false
    | none => false
  { label := s.translatedName, value := formatValue point.value type,
    isCustomMetric := isCustomMetric }

/-- Modelled from the spec: the component `GraphsTooltips` is missing, this is
the body of the spec's loop "for each `TimeSeries s` in input order", with the
rows emitted so far in `rows`. (a) "If `index` is out of bounds for `s.data`
(i.e., `s.data` has fewer than `index+1` points), skip this series", where
"a negative `index` yields an empty result (every bounds check fails)";
(b) "otherwise read `point = s.data[index]`"; (c), (d) as in `assembleRow`. -/
def assembleStep (index : Int) (metricCatalog : List Metric)
    (formatValue : Int → String → String) (rows : List TooltipRow) (s : TimeSeries) :
    List TooltipRow :=
  if index < 0 ∨ (s.data.length : Int) < index + 1 then rows
  else
    match s.data[index.toNat]? with
    | some point => rows ++ [assembleRow s point metricCatalog formatValue]
    | none => rows

/-- Modelled from the spec: the component `GraphsTooltips` is missing, this is
the spec's `assemble(series, index, metricCatalog, formatValue)`: the loop over
the series in input order, starting from no rows. -/
def assemble (series : List TimeSeries) (index : Int) (metricCatalog : List Metric)
    (formatValue : Int → String → String) : List TooltipRow :=
  series.foldl (assembleStep index metricCatalog formatValue) []

/-- The constant `SERIES_OVERVIEW` of `GraphsTooltips-test.js` (lines 24-67). -/
def SERIES_OVERVIEW : List TimeSeries :=
  [ { name := "bugs", translatedName := "metric.bugs.name",
      data := [ { timestamp := "2011-10-01T22:01:00.000Z", value := 3 },
                { timestamp := "2011-10-25T10:27:41.000Z", value := 0 } ] },
    { name := "code_smells", translatedName := "metric.code_smells.name",
      data := [ { timestamp := "2011-10-01T22:01:00.000Z", value := 18 },
                { timestamp := "2011-10-25T10:27:41.000Z", value := 15 } ] },
    { name := "vulnerabilities", translatedName := "metric.vulnerabilities.name",
      data := [ { timestamp := "2011-10-01T22:01:00.000Z", value := 0 },
                { timestamp := "2011-10-25T10:27:41.000Z", value := 1 } ] } ]

/-- The constant `METRICS` of `GraphsTooltips-test.js` (lines 69-72). -/
def METRICS : List Metric :=
  [ { key := "bugs", name := "Bugs", type := "INT" },
    { key := "vulnerabilities", name := "Vulnerabilities", type := "INT", custom := some true } ]

/-- The `formatValue` of the test's `DEFAULT_PROPS` (line 75):
`val => 'Formated.' + val`. -/
def formatValue (val : Int) (_type : String) : String :=
  "Formated." ++ toString val

/-- Whether a series has a point at the index: the index is not negative and
the series has at least `index + 1` points. Used to state properties. -/
def hasPointAt (index : Int) (s : TimeSeries) : Bool :=
  decide (0 ≤ index ∧ index < (s.data.length : Int))

/-- The row a series contributes at the index, if any. Used in proofs. -/
def rowAt? (index : Int) (metricCatalog : List Metric)
    (formatValue : Int → String → String) (s : TimeSeries) : Option TooltipRow :=
  if index < 0 ∨ (s.data.length : Int) < index + 1 then none
  else (s.data[index.toNat]?).map (fun point => assembleRow s point metricCatalog formatValue)

/-! ## Lemmas -/

/-- The key looked up by `getMetricType` is `lookedUpKey` of the displayed
sequence, and the result is the type of the entry found, or `"INT"`. -/
theorem getMetricType_eq (displayed : String → List String → List String) (props : Props) :
    getMetricType displayed props
      = match props.metrics.find? (fun metric =>
            metric.key == lookedUpKey (displayed props.query.graph props.query.customMetrics)) with
        | some metric => metric.type
        | none => "INT" := by
  unfold getMetricType
  cases hd : displayed props.query.graph props.query.customMetrics with
  | nil => simp [lookedUpKey]
  | cons k rest => simp [lookedUpKey]

theorem getMetricType_of_find_some (displayed : String → List String → List String)
    (props : Props) (m : Metric)
    (h : props.metrics.find? (fun metric =>
      metric.key == lookedUpKey (displayed props.query.graph props.query.customMetrics)) = some m) :
    getMetricType displayed props = m.type := by
  rw [getMetricType_eq, h]

theorem getMetricType_of_find_none (displayed : String → List String → List String)
    (props : Props)
    (h : props.metrics.find? (fun metric =>
      metric.key == lookedUpKey (displayed props.query.graph props.query.customMetrics)) = none) :
    getMetricType displayed props = "INT" := by
  rw [getMetricType_eq, h]

/-- A catalog that has an entry with key `k` yields one on lookup: an entry
of the catalog with key `k`. -/
theorem find_key_of_mem (metrics : List Metric) (k : String)
    (h : ∃ m ∈ metrics, m.key = k) :
    ∃ m₀, metrics.find? (fun metric => metric.key == k) = some m₀ ∧ m₀ ∈ metrics ∧ m₀.key = k := by
  cases hf : metrics.find? (fun metric => metric.key == k) with
  | none =>
    obtain ⟨m, hm, hk⟩ := h
    have := List.find?_eq_none.mp hf m hm
    simp [hk] at this
  | some m₀ =>
    refine ⟨m₀, rfl, List.mem_of_find?_eq_some hf, ?_⟩
    have := List.find?_some hf
    simpa using this

/-- The first entry with key `k` is the one the lookup finds. -/
theorem find_key_of_first (pre post : List Metric) (m : Metric) (k : String)
    (hpre : ∀ x ∈ pre, x.key ≠ k) (hk : m.key = k) :
    (pre ++ m :: post).find? (fun metric => metric.key == k) = some m := by
  induction pre with
  | nil => simp [hk]
  | cons x rest ih =>
    have hx : x.key ≠ k := hpre x (List.mem_cons_self _ _)
    have hrest : ∀ y ∈ rest, y.key ≠ k := fun y hy => hpre y (List.mem_cons_of_mem _ hy)
    simp [List.find?_cons, hx, ih hrest]

theorem foldl_assembleStep (index : Int) (metricCatalog : List Metric)
    (fv : Int → String → String) (series : List TimeSeries) (rows : List TooltipRow) :
    series.foldl (assembleStep index metricCatalog fv) rows
      = rows ++ series.filterMap (rowAt? index metricCatalog fv) := by
  induction series generalizing rows with
  | nil => simp
  | cons s rest ih =>
    rw [List.foldl_cons, ih]
    unfold assembleStep rowAt?
    by_cases hb : index < 0 ∨ (s.data.length : Int) < index + 1
    · simp [List.filterMap_cons, hb]
    · cases hp : s.data[index.toNat]? with
      | none => simp [List.filterMap_cons, hb, hp]
      | some point => simp [List.filterMap_cons, hb, hp]

theorem assemble_eq_filterMap (series : List TimeSeries) (index : Int)
    (metricCatalog : List Metric) (fv : Int → String → String) :
    assemble series index metricCatalog fv
      = series.filterMap (rowAt? index metricCatalog fv) := by
  unfold assemble
  rw [foldl_assembleStep]
  simp

/-- A series contributes its row exactly when it has a point at the index. -/
theorem rowAt?_of_point (index : Int) (metricCatalog : List Metric)
    (fv : Int → String → String) (s : TimeSeries) (point : DataPoint)
    (h0 : 0 ≤ index) (hp : s.data[index.toNat]? = some point) :
    rowAt? index metricCatalog fv s = some (assembleRow s point metricCatalog fv) := by
  have hlt : index.toNat < s.data.length := by
    obtain ⟨h, _⟩ := List.getElem?_eq_some.mp hp
    exact h
  have hb : ¬ (index < 0 ∨ (s.data.length : Int) < index + 1) := by omega
  simp [rowAt?, hb, hp]

theorem rowAt?_eq_none (index : Int) (metricCatalog : List Metric)
    (fv : Int → String → String) (s : TimeSeries)
    (h : index < 0 ∨ (s.data.length : Int) ≤ index) :
    rowAt? index metricCatalog fv s = none := by
  have hb : index < 0 ∨ (s.data.length : Int) < index + 1 := by omega
  simp [rowAt?, hb]

theorem rowAt?_isSome (index : Int) (metricCatalog : List Metric)
    (fv : Int → String → String) (s : TimeSeries) :
    (rowAt? index metricCatalog fv s).isSome = hasPointAt index s := by
  by_cases hb : index < 0 ∨ (s.data.length : Int) ≤ index
  · rw [rowAt?_eq_none index metricCatalog fv s hb]
    have : ¬ (0 ≤ index ∧ index < (s.data.length : Int)) := by omega
    simp [hasPointAt, this]
  · have hlt : index.toNat < s.data.length := by omega
    have h0 : 0 ≤ index := by omega
    rw [rowAt?_of_point index metricCatalog fv s s.data[index.toNat] h0
      (List.getElem?_eq_getElem hlt)]
    have : 0 ≤ index ∧ index < (s.data.length : Int) := by omega
    simp [hasPointAt, this]

/-- A `filterMap` keeps the length exactly when it keeps every element. -/
theorem length_filterMap_eq_iff {α β : Type} (f : α → Option β) (l : List α) :
    (l.filterMap f).length = l.length ↔ ∀ a ∈ l, (f a).isSome = true := by
  induction l with
  | nil => simp
  | cons a rest ih =>
    cases hfa : f a with
    | none =>
      have hle := List.length_filterMap_le f rest
      simp [List.filterMap_cons, hfa]
      omega
    | some b =>
      simp [List.filterMap_cons, hfa, ih]

/-- The rows kept by a `filterMap` over the series come from the series that
have a point at the index, in order, each with the point read at the index. -/
theorem filterMap_rowAt?_kept (index : Int) (metricCatalog : List Metric)
    (fv : Int → String → String) (series : List TimeSeries) :
    ∃ kept : List (TimeSeries × DataPoint),
      kept.map Prod.fst = series.filter (hasPointAt index)
      ∧ (∀ sp ∈ kept, sp.1.data[index.toNat]? = some sp.2)
      ∧ series.filterMap (rowAt? index metricCatalog fv)
          = kept.map (fun sp => assembleRow sp.1 sp.2 metricCatalog fv) := by
  induction series with
  | nil => exact ⟨[], by simp⟩
  | cons s rest ih =>
    obtain ⟨kept, hfst, hpts, hrows⟩ := ih
    by_cases hb : index < 0 ∨ (s.data.length : Int) ≤ index
    · have hnone := rowAt?_eq_none index metricCatalog fv s hb
      have hhas : hasPointAt index s = false := by
        rw [← rowAt?_isSome index metricCatalog fv s, hnone]
        rfl
      refine ⟨kept, ?_, hpts, ?_⟩
      · simp [List.filter_cons, hhas, hfst]
      · simp [List.filterMap_cons, hnone, hrows]
    · have hlt : index.toNat < s.data.length := by omega
      have h0 : 0 ≤ index := by omega
      have hp : s.data[index.toNat]? = some s.data[index.toNat] := List.getElem?_eq_getElem hlt
      have hsome := rowAt?_of_point index metricCatalog fv s s.data[index.toNat] h0 hp
      have hhas : hasPointAt index s = true := by
        rw [← rowAt?_isSome index metricCatalog fv s, hsome]
        rfl
      refine ⟨(s, s.data[index.toNat]) :: kept, ?_, ?_, ?_⟩
      · simp [List.filter_cons, hhas, hfst]
      · intro sp hsp
        rcases List.mem_cons.mp hsp with h | h
        · subst h
          exact hp
        · exact hpts sp h
      · simp [List.filterMap_cons, hsome, hrows]

/-- The labels of the rows are a subsequence of the series' translated names. -/
theorem filterMap_rowAt?_labels (index : Int) (metricCatalog : List Metric)
    (fv : Int → String → String) (series : List TimeSeries) :
    ((series.filterMap (rowAt? index metricCatalog fv)).map (fun row => row.label)).Sublist
      (series.map (fun s => s.translatedName)) := by
  induction series with
  | nil => simp
  | cons s rest ih =>
    cases hr : rowAt? index metricCatalog fv s with
    | none =>
      simp only [List.filterMap_cons, hr, List.map_cons]
      exact List.Sublist.cons _ ih
    | some row =>
      have hlabel : row.label = s.translatedName := by
        unfold rowAt? at hr
        split at hr
        · simp at hr
        · cases hp : s.data[index.toNat]? with
          | none => simp [hp] at hr
          | some point =>
            simp [hp] at hr
            rw [← hr]
            rfl
      simp only [List.filterMap_cons, hr, List.map_cons, hlabel]
      exact List.Sublist.cons₂ _ ih

/-! ## `getMetricType` -/

/-- C1: when the displayed-key sequence is non-empty with first key `k` and the
catalog has a metric `m` with key `k`, `getMetricType` returns the type of the
catalog's metric with key `k`: the lookup by key finds an entry of the catalog
with that key and its type is returned, and that type is `m.type` whenever the
catalog's entries with key `k` agree on their type, in particular whenever
keys are unique in the catalog. -/
theorem getMetricType_first_key_found (displayed : String → List String → List String)
    (props : Props) (k : String) (rest : List String) (m : Metric)
    (hd : displayed props.query.graph props.query.customMetrics = k :: rest)
    (hm : m ∈ props.metrics) (hk : m.key = k) :
    (∃ m₀, props.metrics.find? (fun metric => metric.key == k) = some m₀
        ∧ m₀ ∈ props.metrics ∧ m₀.key = k ∧ getMetricType displayed props = m₀.type)
    ∧ ((∀ m' ∈ props.metrics, m'.key = k → m'.type = m.type)
        → getMetricType displayed props = m.type) := by
  obtain ⟨m₀, hf, hmem, hk₀⟩ := find_key_of_mem props.metrics k ⟨m, hm, hk⟩
  have hres : getMetricType displayed props = m₀.type := by
    apply getMetricType_of_find_some
    rw [hd]
    exact hf
  refine ⟨⟨m₀, hf, hmem, hk₀, hres⟩, ?_⟩
  intro hagree
  rw [hres]
  exact hagree m₀ hmem hk₀

/-- C1 at the spec's scenario D: the preset of `"overview"` starts with
`"bugs"`; with the catalog entry of type `INT` the result is `"INT"`, with the
entry changed to `PERCENT` it is `"PERCENT"`. -/
theorem getMetricType_first_key_found_witness :
    getMetricType (getDisplayedHistoryMetrics (fun _ => ["bugs", "code_smells"]))
        { project := ⟨none, "p", ""⟩, metrics := [⟨"bugs", "Bugs", "INT", none⟩],
          query := ⟨"overview", []⟩ } = "INT"
    ∧ getMetricType (getDisplayedHistoryMetrics (fun _ => ["bugs", "code_smells"]))
        { project := ⟨none, "p", ""⟩, metrics := [⟨"bugs", "Bugs", "PERCENT", none⟩],
          query := ⟨"overview", []⟩ } = "PERCENT" :=
  ⟨(getMetricType_first_key_found (getDisplayedHistoryMetrics (fun _ => ["bugs", "code_smells"]))
      { project := ⟨none, "p", ""⟩, metrics := [⟨"bugs", "Bugs", "INT", none⟩],
        query := ⟨"overview", []⟩ } "bugs" ["code_smells"] ⟨"bugs", "Bugs", "INT", none⟩
      (by decide) (by decide) (by decide)).2 (by decide),
   (getMetricType_first_key_found (getDisplayedHistoryMetrics (fun _ => ["bugs", "code_smells"]))
      { project := ⟨none, "p", ""⟩, metrics := [⟨"bugs", "Bugs", "PERCENT", none⟩],
        query := ⟨"overview", []⟩ } "bugs" ["code_smells"] ⟨"bugs", "Bugs", "PERCENT", none⟩
      (by decide) (by decide) (by decide)).2 (by decide)⟩

/-- C2 as stated fails: in custom mode with no custom metric selected the
displayed-key sequence is empty, and with a catalog whose only metric has the
empty string as its key and type `PERCENT` the result is `"PERCENT"`, not
`"INT"`. -/
theorem getMetricType_empty_not_always_INT :
    getDisplayedHistoryMetrics (fun _ => []) "custom" [] = []
    ∧ getMetricType (getDisplayedHistoryMetrics (fun _ => []))
        { project := ⟨none, "p", ""⟩, metrics := [⟨"", "Unnamed", "PERCENT", none⟩],
          query := ⟨"custom", []⟩ } = "PERCENT"
    ∧ getMetricType (getDisplayedHistoryMetrics (fun _ => []))
        { project := ⟨none, "p", ""⟩, metrics := [⟨"", "Unnamed", "PERCENT", none⟩],
          query := ⟨"custom", []⟩ } ≠ "INT" := by
  decide

/-- C2, amended: when the displayed-key sequence is empty and no metric of the
catalog has the empty string as its key, `getMetricType` returns `"INT"`; when
some metric has, it returns the type of the first such metric. -/
theorem getMetricType_empty (displayed : String → List String → List String) (props : Props)
    (hd : displayed props.query.graph props.query.customMetrics = []) :
    ((∀ m ∈ props.metrics, m.key ≠ "") → getMetricType displayed props = "INT")
    ∧ (∀ m, props.metrics.find? (fun metric => metric.key == "") = some m
        → getMetricType displayed props = m.type) := by
  constructor
  · intro hno
    apply getMetricType_of_find_none
    rw [hd, List.find?_eq_none]
    intro x hx
    simpa [lookedUpKey] using hno x hx
  · intro m hf
    apply getMetricType_of_find_some
    rw [hd]
    exact hf

/-- C2, amended, at custom mode with no custom metric and the test's catalog;
and at the catalog of the counterexample. -/
theorem getMetricType_empty_witness :
    getMetricType (getDisplayedHistoryMetrics (fun _ => []))
        { project := ⟨none, "p", ""⟩, metrics := METRICS, query := ⟨"custom", []⟩ } = "INT"
    ∧ getMetricType (getDisplayedHistoryMetrics (fun _ => []))
        { project := ⟨none, "p", ""⟩, metrics := [⟨"", "Unnamed", "PERCENT", none⟩],
          query := ⟨"custom", []⟩ } = "PERCENT" :=
  ⟨(getMetricType_empty (getDisplayedHistoryMetrics (fun _ => []))
      { project := ⟨none, "p", ""⟩, metrics := METRICS, query := ⟨"custom", []⟩ }
      (by decide)).1 (by decide),
   (getMetricType_empty (getDisplayedHistoryMetrics (fun _ => []))
      { project := ⟨none, "p", ""⟩, metrics := [⟨"", "Unnamed", "PERCENT", none⟩],
        query := ⟨"custom", []⟩ }
      (by decide)).2 ⟨"", "Unnamed", "PERCENT", none⟩ (by decide)⟩

/-- C3: `getMetricType` is a total function of the displayed-key sequence and
the catalog: it returns a value, and whenever no metric of the catalog has a
key equal to the looked-up key (the first displayed key, or the empty string
when the sequence is empty), that value is `"INT"`. -/
theorem getMetricType_default (displayed : String → List String → List String) (props : Props) :
    ∃ t, getMetricType displayed props = t
      ∧ ((∀ m ∈ props.metrics,
            m.key ≠ lookedUpKey (displayed props.query.graph props.query.customMetrics))
          → t = "INT") := by
  refine ⟨_, rfl, ?_⟩
  intro hno
  apply getMetricType_of_find_none
  rw [List.find?_eq_none]
  intro x hx
  simpa using hno x hx

/-- C3 at a first key missing from the test's catalog, and at an empty
sequence. -/
theorem getMetricType_default_witness :
    getMetricType (getDisplayedHistoryMetrics (fun _ => []))
        { project := ⟨none, "p", ""⟩, metrics := METRICS,
          query := ⟨"custom", ["code_smells", "bugs"]⟩ } = "INT"
    ∧ getMetricType (getDisplayedHistoryMetrics (fun _ => []))
        { project := ⟨none, "p", ""⟩, metrics := METRICS, query := ⟨"custom", []⟩ } = "INT" := by
  constructor
  · obtain ⟨t, ht, h⟩ := getMetricType_default (getDisplayedHistoryMetrics (fun _ => []))
      { project := ⟨none, "p", ""⟩, metrics := METRICS,
        query := ⟨"custom", ["code_smells", "bugs"]⟩ }
    rw [ht]
    exact h (by decide)
  · obtain ⟨t, ht, h⟩ := getMetricType_default (getDisplayedHistoryMetrics (fun _ => []))
      { project := ⟨none, "p", ""⟩, metrics := METRICS, query := ⟨"custom", []⟩ }
    rw [ht]
    exact h (by decide)

/-- In custom mode the result is the catalog type of the first custom
metric, `"INT"` when the catalog has no entry for it. -/
theorem getMetricType_custom_cons (presets : String → List String) (project : Project)
    (metrics : List Metric) (k : String) (t : List String) :
    getMetricType (getDisplayedHistoryMetrics presets)
        { project := project, metrics := metrics, query := ⟨"custom", k :: t⟩ }
      = (typeInCatalog metrics k).getD "INT" := by
  rw [getMetricType_eq]
  simp only [getDisplayedHistoryMetrics, lookedUpKey, typeInCatalog]
  cases hf : metrics.find? (fun metric => metric.key == k) <;> simp [hf]

/-- C4 as stated fails when one of the two keys is missing from the catalog.
With the catalog `[bugs : INT]` the orderings `["ncloc", "bugs"]` and
`["bugs", "ncloc"]` give the same result `"INT"`, although `"ncloc"` has no
type in the catalog and `"bugs"` has type `INT`. With the catalog
`[bugs : PERCENT]` the two orderings give different results, although the
catalog holds no two entries for the two keys, of different types or not. -/
theorem getMetricType_reorder_counterexample :
    (["ncloc", "bugs"].Perm ["bugs", "ncloc"]
      ∧ getMetricType (getDisplayedHistoryMetrics (fun _ => []))
          { project := ⟨none, "p", ""⟩, metrics := [⟨"bugs", "Bugs", "INT", none⟩],
            query := ⟨"custom", ["ncloc", "bugs"]⟩ }
        = getMetricType (getDisplayedHistoryMetrics (fun _ => []))
          { project := ⟨none, "p", ""⟩, metrics := [⟨"bugs", "Bugs", "INT", none⟩],
            query := ⟨"custom", ["bugs", "ncloc"]⟩ }
      ∧ typeInCatalog [⟨"bugs", "Bugs", "INT", none⟩] "ncloc"
        ≠ typeInCatalog [⟨"bugs", "Bugs", "INT", none⟩] "bugs")
    ∧ (getMetricType (getDisplayedHistoryMetrics (fun _ => []))
          { project := ⟨none, "p", ""⟩, metrics := [⟨"bugs", "Bugs", "PERCENT", none⟩],
            query := ⟨"custom", ["ncloc", "bugs"]⟩ }
        ≠ getMetricType (getDisplayedHistoryMetrics (fun _ => []))
          { project := ⟨none, "p", ""⟩, metrics := [⟨"bugs", "Bugs", "PERCENT", none⟩],
            query := ⟨"custom", ["bugs", "ncloc"]⟩ }
      ∧ ¬ ∃ m₁ ∈ [(⟨"bugs", "Bugs", "PERCENT", none⟩ : Metric)],
          ∃ m₂ ∈ [(⟨"bugs", "Bugs", "PERCENT", none⟩ : Metric)],
            m₁.key = "ncloc" ∧ m₂.key = "bugs" ∧ m₁.type ≠ m₂.type) := by
  refine ⟨⟨?_, ?_, ?_⟩, ?_, ?_⟩
  · exact List.Perm.swap _ _ _
  · decide
  · decide
  · decide
  · decide

/-- C4, amended: in custom mode, for two orderings of the same custom metric
keys whose first keys `k₁` and `k₂` differ, the results of `getMetricType`
differ if and only if the catalog types of `k₁` and `k₂` differ, where the type
of a key is that of its first catalog entry and a key without a catalog entry
counts as `"INT"`; when both keys have a catalog entry this is the claim as
stated. -/
theorem getMetricType_reorder_iff (presets : String → List String) (project : Project)
    (metrics : List Metric) (l₁ l₂ : List String) (k₁ k₂ : String) (t₁ t₂ : List String)
    (hperm : l₁.Perm l₂) (h₁ : l₁ = k₁ :: t₁) (h₂ : l₂ = k₂ :: t₂) (hne : k₁ ≠ k₂) :
    (getMetricType (getDisplayedHistoryMetrics presets)
          { project := project, metrics := metrics, query := ⟨"custom", l₁⟩ }
        ≠ getMetricType (getDisplayedHistoryMetrics presets)
          { project := project, metrics := metrics, query := ⟨"custom", l₂⟩ }
      ↔ (typeInCatalog metrics k₁).getD "INT" ≠ (typeInCatalog metrics k₂).getD "INT")
    ∧ ((typeInCatalog metrics k₁).isSome = true → (typeInCatalog metrics k₂).isSome = true →
        (getMetricType (getDisplayedHistoryMetrics presets)
            { project := project, metrics := metrics, query := ⟨"custom", l₁⟩ }
          ≠ getMetricType (getDisplayedHistoryMetrics presets)
            { project := project, metrics := metrics, query := ⟨"custom", l₂⟩ }
        ↔ typeInCatalog metrics k₁ ≠ typeInCatalog metrics k₂)) := by
  have _ := hperm
  have _ := hne
  subst h₁ h₂
  rw [getMetricType_custom_cons, getMetricType_custom_cons]
  refine ⟨Iff.rfl, ?_⟩
  intro hs₁ hs₂
  cases h₁ : typeInCatalog metrics k₁ with
  | none => simp [h₁] at hs₁
  | some a =>
    cases h₂ : typeInCatalog metrics k₂ with
    | none => simp [h₂] at hs₂
    | some b => simp

/-- C4, amended, at the test's catalog extended by a percentage: moving
`"coverage"` in front of `"bugs"` changes the result. -/
theorem getMetricType_reorder_iff_witness :
    getMetricType (getDisplayedHistoryMetrics (fun _ => []))
        { project := ⟨none, "p", ""⟩,
          metrics := ⟨"coverage", "Coverage", "PERCENT", none⟩ :: METRICS,
          query := ⟨"custom", ["bugs", "coverage"]⟩ }
      ≠ getMetricType (getDisplayedHistoryMetrics (fun _ => []))
        { project := ⟨none, "p", ""⟩,
          metrics := ⟨"coverage", "Coverage", "PERCENT", none⟩ :: METRICS,
          query := ⟨"custom", ["coverage", "bugs"]⟩ } :=
  ((getMetricType_reorder_iff (fun _ => []) ⟨none, "p", ""⟩
      (⟨"coverage", "Coverage", "PERCENT", none⟩ :: METRICS)
      ["bugs", "coverage"] ["coverage", "bugs"] "bugs" "coverage" ["coverage"] ["bugs"]
      (List.Perm.swap _ _ _) rfl rfl (by decide)).2 (by decide) (by decide)).mpr (by decide)

/-- C9: `getMetricType` reads the displayed keys only through the first key
and the catalog only through the first entry with that key. Two displayed-key
sequences with the same first key give equal results on the same catalog;
when the catalog is `pre ++ m :: post` with `m` the earliest entry whose key is
the first displayed key, the result is `m.type`, whatever `post` holds; and the
result is always `"INT"` or the type of some metric of the catalog. -/
theorem getMetricType_first_only (displayed : String → List String → List String)
    (props : Props) :
    (∀ (displayed' : String → List String → List String) (props' : Props)
        (k : String) (r r' : List String),
        props'.metrics = props.metrics →
        displayed props.query.graph props.query.customMetrics = k :: r →
        displayed' props'.query.graph props'.query.customMetrics = k :: r' →
        getMetricType displayed' props' = getMetricType displayed props)
    ∧ (∀ (k : String) (r : List String) (pre post : List Metric) (m : Metric),
        displayed props.query.graph props.query.customMetrics = k :: r →
        props.metrics = pre ++ m :: post →
        (∀ x ∈ pre, x.key ≠ k) → m.key = k →
        getMetricType displayed props = m.type)
    ∧ (getMetricType displayed props = "INT"
        ∨ ∃ m ∈ props.metrics, getMetricType displayed props = m.type) := by
  refine ⟨?_, ?_, ?_⟩
  · intro displayed' props' k r r' hmet hd hd'
    rw [getMetricType_eq, getMetricType_eq, hd, hd', hmet]
    simp only [lookedUpKey]
  · intro k r pre post m hd hsplit hpre hk
    apply getMetricType_of_find_some
    rw [hd, hsplit]
    exact find_key_of_first pre post m k hpre hk
  · rw [getMetricType_eq]
    cases hf : props.metrics.find? (fun metric =>
        metric.key == lookedUpKey (displayed props.query.graph props.query.customMetrics)) with
    | none => exact Or.inl rfl
    | some m => exact Or.inr ⟨m, List.mem_of_find?_eq_some hf, rfl⟩

/-- C9 at a catalog with two entries for `"bugs"`: the earlier one, of type
`PERCENT`, decides, also when the keys after the first differ. -/
theorem getMetricType_first_only_witness :
    getMetricType (getDisplayedHistoryMetrics (fun _ => []))
        { project := ⟨none, "p", ""⟩,
          metrics := [⟨"ncloc", "Lines", "INT", none⟩, ⟨"bugs", "Bugs", "PERCENT", none⟩,
                      ⟨"bugs", "Bugs", "RATING", none⟩],
          query := ⟨"custom", ["bugs", "ncloc"]⟩ } = "PERCENT"
    ∧ getMetricType (getDisplayedHistoryMetrics (fun _ => ["bugs"]))
        { project := ⟨none, "q", ""⟩,
          metrics := [⟨"ncloc", "Lines", "INT", none⟩, ⟨"bugs", "Bugs", "PERCENT", none⟩,
                      ⟨"bugs", "Bugs", "RATING", none⟩],
          query := ⟨"overview", []⟩ }
      = getMetricType (getDisplayedHistoryMetrics (fun _ => []))
        { project := ⟨none, "p", ""⟩,
          metrics := [⟨"ncloc", "Lines", "INT", none⟩, ⟨"bugs", "Bugs", "PERCENT", none⟩,
                      ⟨"bugs", "Bugs", "RATING", none⟩],
          query := ⟨"custom", ["bugs", "ncloc"]⟩ } :=
  ⟨(getMetricType_first_only (getDisplayedHistoryMetrics (fun _ => []))
      { project := ⟨none, "p", ""⟩,
        metrics := [⟨"ncloc", "Lines", "INT", none⟩, ⟨"bugs", "Bugs", "PERCENT", none⟩,
                    ⟨"bugs", "Bugs", "RATING", none⟩],
        query := ⟨"custom", ["bugs", "ncloc"]⟩ }).2.1
      "bugs" ["ncloc"] [⟨"ncloc", "Lines", "INT", none⟩] [⟨"bugs", "Bugs", "RATING", none⟩]
      ⟨"bugs", "Bugs", "PERCENT", none⟩ (by decide) rfl (by decide) rfl,
   (getMetricType_first_only (getDisplayedHistoryMetrics (fun _ => []))
      { project := ⟨none, "p", ""⟩,
        metrics := [⟨"ncloc", "Lines", "INT", none⟩, ⟨"bugs", "Bugs", "PERCENT", none⟩,
                    ⟨"bugs", "Bugs", "RATING", none⟩],
        query := ⟨"custom", ["bugs", "ncloc"]⟩ }).1
      (getDisplayedHistoryMetrics (fun _ => ["bugs"]))
      { project := ⟨none, "q", ""⟩,
        metrics := [⟨"ncloc", "Lines", "INT", none⟩, ⟨"bugs", "Bugs", "PERCENT", none⟩,
                    ⟨"bugs", "Bugs", "RATING", none⟩],
        query := ⟨"overview", []⟩ }
      "bugs" ["ncloc"] [] rfl (by decide) (by decide)⟩

/-! ## `render` -/

/-- C10: the `canAdmin` flag `render` passes to the analyses list is true if
and only if the project has a configuration whose `showHistory` is true; for a
project without a configuration it is false. -/
theorem render_canAdmin (displayed : String → List String → List String) (props : Props) :
    ((render displayed props).canAdmin = true
      ↔ ∃ c, props.project.configuration = some c ∧ c.showHistory = true)
    ∧ (props.project.configuration = none → (render displayed props).canAdmin = false) := by
  unfold render
  cases hc : props.project.configuration with
  | none => simp
  | some c => simp

/-- C10 at a project without a configuration. -/
theorem render_canAdmin_witness :
    (render (getDisplayedHistoryMetrics (fun _ => []))
      { project := ⟨none, "p", ""⟩, metrics := METRICS, query := ⟨"overview", []⟩ }).canAdmin
      = false :=
  (render_canAdmin (getDisplayedHistoryMetrics (fun _ => []))
    { project := ⟨none, "p", ""⟩, metrics := METRICS, query := ⟨"overview", []⟩ }).2 rfl

/-! ## Tooltip rows -/

/-- C5: a series `s` with a point at the index contributes exactly one row, in
its place between the rows of the series before it and those after it; the
row's label is `s.translatedName`, its value is `formatValue` of the point's
value and the type of the catalog metric named `s.name`, and its flag is that
metric's `custom` (false when the property is absent); when the catalog has no
such metric the type is `"INT"` and the flag false. On the test's constants
the rows at index 0 and at index 1 are the expected ones. -/
theorem assemble_row :
    (∀ (pre post : List TimeSeries) (s : TimeSeries) (index : Int) (point : DataPoint)
        (metricCatalog : List Metric) (fv : Int → String → String),
        0 ≤ index → s.data[index.toNat]? = some point →
        ∃ row, assemble (pre ++ s :: post) index metricCatalog fv
              = assemble pre index metricCatalog fv
                ++ row :: assemble post index metricCatalog fv
          ∧ row.label = s.translatedName
          ∧ (∀ m, metricCatalog.find? (fun metric => metric.key == s.name) = some m →
              row.value = fv point.value m.type ∧ row.isCustomMetric = m.custom.getD false)
          ∧ ((∀ m ∈ metricCatalog, m.key ≠ s.name) →
              row.value = fv point.value "INT" ∧ row.isCustomMetric = false))
    ∧ assemble SERIES_OVERVIEW 0 METRICS formatValue
        = [⟨"metric.bugs.name", "Formated.3", false⟩,
           ⟨"metric.code_smells.name", "Formated.18", false⟩,
           ⟨"metric.vulnerabilities.name", "Formated.0", true⟩]
    ∧ assemble SERIES_OVERVIEW 1 METRICS formatValue
        = [⟨"metric.bugs.name", "Formated.0", false⟩,
           ⟨"metric.code_smells.name", "Formated.15", false⟩,
           ⟨"metric.vulnerabilities.name", "Formated.1", true⟩] := by
  refine ⟨?_, by decide, by decide⟩
  intro pre post s index point metricCatalog fv h0 hp
  refine ⟨assembleRow s point metricCatalog fv, ?_, rfl, ?_, ?_⟩
  · simp only [assemble_eq_filterMap, List.filterMap_append, List.filterMap_cons,
      rowAt?_of_point index metricCatalog fv s point h0 hp]
  · intro m hf
    unfold assembleRow
    simp only [hf]
    cases m.custom <;> simp
  · intro hno
    have hf : metricCatalog.find? (fun metric => metric.key == s.name) = none := by
      rw [List.find?_eq_none]
      intro x hx
      simpa using hno x hx
    unfold assembleRow
    simp [hf]

/-- C5 at the test's second series, `code_smells`, which the catalog lacks:
its row at index 0 stands between the row of `bugs` and the row of
`vulnerabilities`, with the value formatted as an `INT` and the flag false. -/
theorem assemble_row_witness :
    ∃ row, assemble SERIES_OVERVIEW 0 METRICS formatValue
          = assemble [⟨"bugs", "metric.bugs.name",
                [⟨"2011-10-01T22:01:00.000Z", 3⟩, ⟨"2011-10-25T10:27:41.000Z", 0⟩]⟩]
              0 METRICS formatValue
            ++ row :: assemble [⟨"vulnerabilities", "metric.vulnerabilities.name",
                [⟨"2011-10-01T22:01:00.000Z", 0⟩, ⟨"2011-10-25T10:27:41.000Z", 1⟩]⟩]
              0 METRICS formatValue
      ∧ row.label = "metric.code_smells.name"
      ∧ row.value = formatValue 18 "INT" ∧ row.isCustomMetric = false := by
  obtain ⟨row, hrow, hlabel, _, hmiss⟩ := assemble_row.1
    [⟨"bugs", "metric.bugs.name",
      [⟨"2011-10-01T22:01:00.000Z", 3⟩, ⟨"2011-10-25T10:27:41.000Z", 0⟩]⟩]
    [⟨"vulnerabilities", "metric.vulnerabilities.name",
      [⟨"2011-10-01T22:01:00.000Z", 0⟩, ⟨"2011-10-25T10:27:41.000Z", 1⟩]⟩]
    ⟨"code_smells", "metric.code_smells.name",
      [⟨"2011-10-01T22:01:00.000Z", 18⟩, ⟨"2011-10-25T10:27:41.000Z", 15⟩]⟩
    0 ⟨"2011-10-01T22:01:00.000Z", 18⟩ METRICS formatValue (by decide) (by decide)
  exact ⟨row, hrow, hlabel, hmiss (by decide)⟩

/-- C6 as stated fails at a negative index: at index `-1` every series of the
test has at least `index + 1 = 0` points, yet no row is emitted for the three
series. -/
theorem assemble_length_counterexample :
    (∀ s ∈ SERIES_OVERVIEW, (-1 : Int) + 1 ≤ (s.data.length : Int))
    ∧ (assemble SERIES_OVERVIEW (-1) METRICS formatValue).length = 0
    ∧ SERIES_OVERVIEW.length = 3 := by
  decide

/-- C6, amended: the output is at most as long as the input, and as long as
the input if and only if every series has a point at the index, that is, the
index is not negative and every series has at least `index + 1` points; for an
index that is not negative this is the claim as stated. -/
theorem assemble_length (series : List TimeSeries) (index : Int)
    (metricCatalog : List Metric) (fv : Int → String → String) :
    (assemble series index metricCatalog fv).length ≤ series.length
    ∧ ((assemble series index metricCatalog fv).length = series.length
        ↔ ∀ s ∈ series, 0 ≤ index ∧ index + 1 ≤ (s.data.length : Int))
    ∧ (0 ≤ index →
        ((assemble series index metricCatalog fv).length = series.length
          ↔ ∀ s ∈ series, index + 1 ≤ (s.data.length : Int))) := by
  have hiff : (assemble series index metricCatalog fv).length = series.length
      ↔ ∀ s ∈ series, 0 ≤ index ∧ index + 1 ≤ (s.data.length : Int) := by
    rw [assemble_eq_filterMap, length_filterMap_eq_iff]
    constructor
    · intro h s hs
      have := h s hs
      rw [rowAt?_isSome] at this
      simp [hasPointAt] at this
      omega
    · intro h s hs
      have := h s hs
      rw [rowAt?_isSome]
      simp [hasPointAt]
      omega
  refine ⟨?_, hiff, ?_⟩
  · rw [assemble_eq_filterMap]
    exact List.length_filterMap_le _ _
  · intro h0
    rw [hiff]
    constructor
    · intro h s hs
      exact (h s hs).2
    · intro h s hs
      exact ⟨h0, h s hs⟩

/-- C6, amended, at the test's series: at index 1 all three series have two
points, so three rows are emitted. -/
theorem assemble_length_witness :
    (assemble SERIES_OVERVIEW 1 METRICS formatValue).length = SERIES_OVERVIEW.length :=
  ((assemble_length SERIES_OVERVIEW 1 METRICS formatValue).2.2 (by decide)).mpr (by decide)

/-- C7: the rows are exactly the rows of the series that have a point at the
index, in the order of these series in the input: there is a list `kept` of
series with their points whose series are the input filtered by the bounds
check, in input order, whose points are the ones read at the index, and whose
rows, in that order, are the output. In particular the labels of the output
are a subsequence of the translated names of the input. -/
theorem assemble_order (series : List TimeSeries) (index : Int)
    (metricCatalog : List Metric) (fv : Int → String → String) :
    (∃ kept : List (TimeSeries × DataPoint),
      kept.map Prod.fst = series.filter (hasPointAt index)
      ∧ (∀ sp ∈ kept, sp.1.data[index.toNat]? = some sp.2)
      ∧ assemble series index metricCatalog fv
          = kept.map (fun sp => assembleRow sp.1 sp.2 metricCatalog fv))
    ∧ ((assemble series index metricCatalog fv).map (fun row => row.label)).Sublist
        (series.map (fun s => s.translatedName)) := by
  rw [assemble_eq_filterMap]
  exact ⟨filterMap_rowAt?_kept index metricCatalog fv series,
    filterMap_rowAt?_labels index metricCatalog fv series⟩

/-- C7 at three series of which the middle one has a single point: at index
1 the rows are those of the first and the third series, in that order. -/
theorem assemble_order_witness :
    ∃ kept : List (TimeSeries × DataPoint),
      kept.map Prod.fst
          = [⟨"bugs", "metric.bugs.name", [⟨"d1", 3⟩, ⟨"d2", 0⟩]⟩,
             ⟨"vulnerabilities", "metric.vulnerabilities.name", [⟨"d1", 0⟩, ⟨"d2", 1⟩]⟩]
      ∧ assemble
          [⟨"bugs", "metric.bugs.name", [⟨"d1", 3⟩, ⟨"d2", 0⟩]⟩,
           ⟨"code_smells", "metric.code_smells.name", [⟨"d1", 18⟩]⟩,
           ⟨"vulnerabilities", "metric.vulnerabilities.name", [⟨"d1", 0⟩, ⟨"d2", 1⟩]⟩]
          1 METRICS formatValue
        = kept.map (fun sp => assembleRow sp.1 sp.2 METRICS formatValue) := by
  obtain ⟨kept, hfst, _, hrows⟩ := (assemble_order
    [⟨"bugs", "metric.bugs.name", [⟨"d1", 3⟩, ⟨"d2", 0⟩]⟩,
     ⟨"code_smells", "metric.code_smells.name", [⟨"d1", 18⟩]⟩,
     ⟨"vulnerabilities", "metric.vulnerabilities.name", [⟨"d1", 0⟩, ⟨"d2", 1⟩]⟩]
    1 METRICS formatValue).1
  refine ⟨kept, ?_, hrows⟩
  rw [hfst]
  decide

/-- C8: at an index that is negative, or that is at least the length of the
data of every series, no row is emitted. -/
theorem assemble_out_of_range (series : List TimeSeries) (index : Int)
    (metricCatalog : List Metric) (fv : Int → String → String)
    (h : index < 0 ∨ ∀ s ∈ series, (s.data.length : Int) ≤ index) :
    assemble series index metricCatalog fv = [] := by
  rw [assemble_eq_filterMap, List.filterMap_eq_nil_iff]
  intro s hs
  apply rowAt?_eq_none
  rcases h with h | h
  · exact Or.inl h
  · exact Or.inr (h s hs)

/-- C8 at the spec's scenario C, index 5 with all series of length 2, and at
index `-3`. -/
theorem assemble_out_of_range_witness :
    assemble SERIES_OVERVIEW 5 METRICS formatValue = []
    ∧ assemble SERIES_OVERVIEW (-3) METRICS formatValue = [] :=
  ⟨assemble_out_of_range SERIES_OVERVIEW 5 METRICS formatValue (Or.inr (by decide)),
   assemble_out_of_range SERIES_OVERVIEW (-3) METRICS formatValue (Or.inl (by decide))⟩

end ProjectActivity
